import Mathlib

/-!
Verification of the SilentDB `data_encoding` crate (BSON encoder, value
model, object identifiers) against its natural-language specification.

Modelling conventions:
* Machine bytes are `Nat` (values intended `< 256`); buffers are `List Nat`.
* Rust strings appear on the wire as their UTF-8 bytes, so string-typed
  payloads and field names are modelled as byte lists (`List Nat`).
* `f64` payloads are modelled by their 64-bit pattern (a `Nat < 2 ^ 64`):
  `write_f64::<LittleEndian>` emits exactly the 8 pattern bytes.
* `i32`/`i64` payloads are `Int`; the wire stores them two's-complement,
  i.e. `(v % 2 ^ w).toNat` in little-endian bytes.
* Rust panics (`unwrap` on `None`, `copy_from_slice` length mismatch) are
  modelled as a dedicated `panicked` result / `none`.
-/

/-- Little-endian byte encoding of `n` on `k` bytes (the `byteorder`
`write_uXX::<LittleEndian>` family). -/
def leBytes : Nat → Nat → List Nat
  | 0, _ => []
  | k + 1, n => n % 256 :: leBytes k (n / 256)

/-- Four little-endian bytes (`write_u32` / `write_i32`). -/
def le32 (n : Nat) : List Nat := leBytes 4 n

/-- Eight little-endian bytes (`write_u64` / `write_i64` / `write_f64`). -/
def le64 (n : Nat) : List Nat := leBytes 8 n

/-- Value of a little-endian byte list. -/
def leVal : List Nat → Nat
  | [] => 0
  | b :: r => b + 256 * leVal r

/-- Two's-complement wire image of a signed value, width `2 ^ 32`. -/
def toU32 (v : Int) : Nat := (v % (2 ^ 32 : Int)).toNat

/-- Two's-complement wire image of a signed value, width `2 ^ 64`. -/
def toU64 (v : Int) : Nat := (v % (2 ^ 64 : Int)).toNat

/-- Signed interpretation of an unsigned `w`-bit value. -/
def sintOfU (w u : Nat) : Int :=
  if u < 2 ^ (w - 1) then (u : Int) else (u : Int) - 2 ^ w

/-- Signed 32-bit interpretation of four little-endian bytes. -/
def sint32OfLe (bs : List Nat) : Int := sintOfU 32 (leVal bs)

/-- Overwrite `data` into `buf` at absolute position `pos`, extending the
buffer as needed: the behaviour of `Write` at a seek position of a
`Cursor<Vec<u8>>` (in every reachable state `pos ≤ buf.length`). -/
def writeAt (buf : List Nat) (pos : Nat) (data : List Nat) : List Nat :=
  buf.take pos ++ data ++ buf.drop (pos + data.length)

/-- The BSON value model (`src/data_encoding/src/types/value.rs`,
`enum Value`).  `Document` is kept as the list of its entries in the
map's iteration order: the source stores a `std::collections::HashMap`,
whose iteration order is arbitrary (not the insertion order). -/
inductive Value where
  | double (bits : Nat)
  | string (s : List Nat)
  | document (fields : List (List Nat × Value))
  | array (elems : List Value)
  | binary (bytes : List Nat)
  | objectId (oid : List Nat)
  | boolean (b : Bool)
  | utcDateTime (v : Int)
  | null
  | regularExpression (pattern options : List Nat)
  | javaScriptCode (code : List Nat)
  | javaScriptCodeWithScope (code : List Nat) (scope : List (List Nat × Value))
  | int32 (v : Int)
  | timestamp (v : Int)
  | int64 (v : Int)
  | uint64 (v : Nat)
  | minKey
  | maxKey

/-- Serialization error kinds (`src/data_encoding/src/ser/error.rs`,
`enum SerializeError`); the `String`/cause payloads are not modelled. -/
inductive SerErr where
  | io
  | bufferOverflow
  | invalidValue
  | utf8
  | invalidDocument
  | deprecated
  | notImplemented
  | notSupported
deriving DecidableEq

/-- State of `BsonSerializer<W>` (`src/data_encoding/src/ser/bson.rs`):
the cursor-backed writer (`buf` plus seek position `pos`) and the
`document_positions` stack. -/
structure SerState where
  buf : List Nat
  pos : Nat
  stack : List Nat
deriving DecidableEq

/-- Outcome of a serializer call: success, a returned `Err`, or a Rust
panic (`unwrap` of `None`). -/
inductive SerResult where
  | ok (s : SerState)
  | fail (e : SerErr) (s : SerState)
  | panicked
deriving DecidableEq

/-- Write `data` at the current position and advance it. -/
def wr (s : SerState) (data : List Nat) : SerState :=
  { s with buf := writeAt s.buf s.pos data, pos := s.pos + data.length }

/-- Sequence a serializer step after a previous result (the effect of the
`?` operator on the preceding call). -/
def bindR (r : SerResult) (f : SerState → SerResult) : SerResult :=
  match r with
  | .ok s => f s
  | .fail e s => .fail e s
  | .panicked => .panicked

/-- `BsonSerializer::write_document_length`: pops the innermost recorded
document position (Rust: `self.document_positions.pop().unwrap()` — a
panic when the stack is empty), computes `current - recorded`, seeks
back, writes it as `u32` little-endian (`length as u32`), and seeks
forward to the original position. -/
def write_document_length (s : SerState) : SerResult :=
  match s.stack with
  | [] => .panicked
  | p :: rest =>
      .ok { buf := writeAt s.buf p (le32 ((s.pos - p) % 2 ^ 32)),
            pos := s.pos, stack := rest }

/-- `Serializer::end_document` for `BsonSerializer`: delegates to
`write_document_length`. -/
def end_document (s : SerState) : SerResult := write_document_length s

/-- `Serializer::start_document` for `BsonSerializer`: type tag `0x03`,
push the current position, write a 4-byte zero placeholder. -/
def start_document (s : SerState) : SerResult :=
  let s1 := wr s [0x03]
  let s2 := { s1 with stack := s1.pos :: s1.stack }
  .ok (wr s2 (le32 0))

/-- `Serializer::serialize_field_name`: the name's UTF-8 bytes then a NUL
terminator (the source returns `Ok(())` unconditionally). -/
def serialize_field_name (name : List Nat) (s : SerState) : SerState :=
  wr s (name ++ [0])

/-- `serialize_f64`: tag `0x01` then the 8 pattern bytes little-endian. -/
def serialize_f64 (bits : Nat) (s : SerState) : SerResult :=
  .ok (wr s (0x01 :: le64 (bits % 2 ^ 64)))

/-- `serialize_string`: tag `0x02`, then `value.len() as i32 + 1`
little-endian (two's complement, hence modulo `2 ^ 32`), then the UTF-8
bytes, then a NUL terminator. -/
def serialize_string (v : List Nat) (s : SerState) : SerResult :=
  let s1 := wr s [0x02]
  let s2 := wr s1 (le32 ((v.length + 1) % 2 ^ 32))
  let s3 := wr s2 v
  .ok (wr s3 [0])

/-- `serialize_binary`: tag `0x05`, `value.len() as i32` little-endian,
subtype byte `0x00`, then the bytes. -/
def serialize_binary (v : List Nat) (s : SerState) : SerResult :=
  .ok (wr s (0x05 :: le32 (v.length % 2 ^ 32) ++ [0] ++ v))

/-- `serialize_undefined` as written in the source: it writes the tag
byte `0x06` and returns `Ok(())` — it does NOT return a `Deprecated`
error, contradicting the `Serializer` trait documentation. -/
def serialize_undefined (s : SerState) : SerResult :=
  .ok (wr s [0x06])

/-- `serialize_object_id`: tag `0x07` then the 12 identifier bytes. -/
def serialize_object_id (oid : List Nat) (s : SerState) : SerResult :=
  .ok (wr s (0x07 :: oid))

/-- `serialize_boolean`: tag `0x08` then `0x01`/`0x00`. -/
def serialize_boolean (b : Bool) (s : SerState) : SerResult :=
  .ok (wr s [0x08, if b then 1 else 0])

/-- `serialize_utc_datetime`: tag `0x09` then the value as `i64`
little-endian. -/
def serialize_utc_datetime (v : Int) (s : SerState) : SerResult :=
  .ok (wr s (0x09 :: le64 (toU64 v)))

/-- `serialize_null`: the single tag byte `0x0A`. -/
def serialize_null (s : SerState) : SerResult :=
  .ok (wr s [0x0A])

/-- `serialize_regex`: tag `0x0B`, NUL-terminated pattern, NUL-terminated
options. -/
def serialize_regex (pattern options : List Nat) (s : SerState) : SerResult :=
  .ok (wr s (0x0B :: pattern ++ [0] ++ options ++ [0]))

/-- `serialize_db_pointer`: returns `Err(SerializeError::Deprecated(..))`
without writing (the formatted message string is not modelled). -/
def serialize_db_pointer (collection : List Nat) (id : List Nat)
    (s : SerState) : SerResult :=
  .fail .deprecated s

/-- `serialize_javascript_code` as written in the source: tag `0x0D`,
the code bytes, a NUL terminator — and NO length prefix. -/
def serialize_javascript_code (code : List Nat) (s : SerState) : SerResult :=
  .ok (wr s (0x0D :: code ++ [0]))

/-- `serialize_symbol`: returns `Err(SerializeError::Deprecated(..))`
without writing. -/
def serialize_symbol (symbol : List Nat) (s : SerState) : SerResult :=
  .fail .deprecated s

/-- The `truncated_code` computation inside
`serialize_javascript_code_with_scope` (bson.rs lines 219-224), on the
sequence of `char`s of the code: `code.chars().take(10)` with
`"..."` appended exactly when `code.chars().count() > 100`. -/
def truncated_code (code : List Char) : List Char :=
  code.take 10 ++ (if code.length > 100 then ['.', '.', '.'] else [])

/-- `serialize_javascript_code_with_scope`: returns
`Err(SerializeError::Deprecated(..))` without writing; the message embeds
`truncated_code` (message string itself not modelled). -/
def serialize_javascript_code_with_scope (code : List Nat)
    (scope : List (List Nat × Value)) (s : SerState) : SerResult :=
  .fail .deprecated s

/-- `serialize_i32`: tag `0x10` then the value as `i32` little-endian. -/
def serialize_i32 (v : Int) (s : SerState) : SerResult :=
  .ok (wr s (0x10 :: le32 (toU32 v)))

/-- `serialize_timestamp`: tag `0x11` then the value as `i64`
little-endian. -/
def serialize_timestamp (v : Int) (s : SerState) : SerResult :=
  .ok (wr s (0x11 :: le64 (toU64 v)))

/-- `serialize_i64`: tag `0x12` then the value as `i64` little-endian. -/
def serialize_i64 (v : Int) (s : SerState) : SerResult :=
  .ok (wr s (0x12 :: le64 (toU64 v)))

/-- `serialize_u64`: tag `0x13` then the value as `u64` little-endian. -/
def serialize_u64 (v : Nat) (s : SerState) : SerResult :=
  .ok (wr s (0x13 :: le64 (v % 2 ^ 64)))

/-- `serialize_min_key`: the single tag byte `0xFF`. -/
def serialize_min_key (s : SerState) : SerResult :=
  .ok (wr s [0xFF])

/-- `serialize_max_key`: the single tag byte `0x7F`. -/
def serialize_max_key (s : SerState) : SerResult :=
  .ok (wr s [0x7F])

/-- Decimal ASCII form of an index, as produced by Rust's
`usize::to_string` in `serialize_array` (`&index.to_string()`). -/
def natDecimalBytes (n : Nat) : List Nat :=
  if n = 0 then [48] else (Nat.digits 10 n).reverse.map (fun d => d + 48)

/-- Numeric value of a decimal ASCII byte string. -/
def decimalVal (bs : List Nat) : Nat :=
  Nat.ofDigits 10 (bs.map (fun c => c - 48)).reverse

/-- The (name, value) pairs `serialize_array`'s `enumerate` loop produces,
starting at index `idx`. -/
def synthFields (idx : Nat) : List Value → List (List Nat × Value)
  | [] => []
  | v :: rest => (natDecimalBytes idx, v) :: synthFields (idx + 1) rest

mutual

/-- `Value::serialize` (`src/data_encoding/src/types/value.rs` lines
36-61): the visitor dispatch.  Note `Value::UTCDateTime` is routed to
`serialize_timestamp`, exactly as in the source. -/
def serializeValue : Value → SerState → SerResult
  | .double bits, s => serialize_f64 bits s
  | .string v, s => serialize_string v s
  | .document fields, s => serialize_document fields s
  | .array elems, s => serialize_array elems s
  | .binary v, s => serialize_binary v s
  | .objectId oid, s => serialize_object_id oid s
  | .boolean b, s => serialize_boolean b s
  | .utcDateTime v, s => serialize_timestamp v s
  | .null, s => serialize_null s
  | .regularExpression pat opts, s => serialize_regex pat opts s
  | .javaScriptCode c, s => serialize_javascript_code c s
  | .javaScriptCodeWithScope c sc, s => serialize_javascript_code_with_scope c sc s
  | .int32 v, s => serialize_i32 v s
  | .timestamp v, s => serialize_timestamp v s
  | .int64 v, s => serialize_i64 v s
  | .uint64 v, s => serialize_u64 v s
  | .minKey, s => serialize_min_key s
  | .maxKey, s => serialize_max_key s
termination_by v _ => 2 * sizeOf v
decreasing_by all_goals (simp_wf <;> omega)

/-- `serialize_document` (bson.rs lines 70-90): tag `0x03`, push the
current position, 4-byte zero placeholder, the field loop, then
`end_document`.  Faithful to the source, it writes NO `0x00` document
terminator. -/
def serialize_document (fields : List (List Nat × Value)) (s : SerState) :
    SerResult :=
  let s1 := wr s [0x03]
  let s2 := { s1 with stack := s1.pos :: s1.stack }
  let s3 := wr s2 (le32 0)
  bindR (serializeFields fields s3) end_document
termination_by 2 * sizeOf fields + 1
decreasing_by all_goals (simp_wf <;> omega)

/-- `serialize_array` (bson.rs lines 92-112): tag `0x04`, push the
current position, 4-byte zero placeholder, the `enumerate` loop using
`index.to_string()` as field name, then `end_document`. -/
def serialize_array (elems : List Value) (s : SerState) : SerResult :=
  let s1 := wr s [0x04]
  let s2 := { s1 with stack := s1.pos :: s1.stack }
  let s3 := wr s2 (le32 0)
  bindR (serializeElems 0 elems s3) end_document
termination_by 2 * sizeOf elems + 1
decreasing_by all_goals (simp_wf <;> omega)

/-- The field loop of `serialize_document`:
`self.serialize_field_name(key)?; value.serialize(self)?` per entry. -/
def serializeFields : List (List Nat × Value) → SerState → SerResult
  | [], s => .ok s
  | (k, v) :: rest, s =>
      bindR (serializeValue v (serialize_field_name k s)) (serializeFields rest)
termination_by l _ => 2 * sizeOf l
decreasing_by all_goals (simp_wf <;> omega)

/-- The element loop of `serialize_array`:
`self.serialize_field_name(&index.to_string())?; value.serialize(self)?`
per element, `index` counting from `idx`. -/
def serializeElems (idx : Nat) : List Value → SerState → SerResult
  | [], s => .ok s
  | v :: rest, s =>
      bindR (serializeValue v (serialize_field_name (natDecimalBytes idx) s))
        (serializeElems (idx + 1) rest)
termination_by l _ => 2 * sizeOf l
decreasing_by all_goals (simp_wf <;> omega)

end

/-- Run `Value::serialize` through a fresh in-memory `BsonSerializer`
(cursor over an empty buffer) and return the bytes.  Modelled from the
spec: the `to_bytes` facade (spec section 6) is out of scope in the
source tree; this is the interface shape the core consumes. -/
def encodeValue (v : Value) : Option (List Nat) :=
  match serializeValue v ⟨[], 0, []⟩ with
  | .ok s => some s.buf
  | _ => none

/-- Hex digit value of an ASCII byte.  Modelled from the spec: the hex
codec is an injected dependency (spec section 6); this follows the `hex`
crate, which accepts `0-9`, `a-f` and `A-F`. -/
def hexDigitVal (c : Nat) : Option Nat :=
  if 48 ≤ c ∧ c ≤ 57 then some (c - 48)
  else if 97 ≤ c ∧ c ≤ 102 then some (c - 87)
  else if 65 ≤ c ∧ c ≤ 70 then some (c - 55)
  else none

/-- Modelled from the spec: `hex::decode` of the injected hex codec
(spec section 6).  Fails (`none`) on a string of odd length or on any
non-hexadecimal character; otherwise yields one byte per digit pair. -/
def hexDecode : List Nat → Option (List Nat)
  | [] => some []
  | [_] => none
  | c1 :: c2 :: rest =>
      match hexDigitVal c1, hexDigitVal c2, hexDecode rest with
      | some h, some l, some bs => some ((h * 16 + l) :: bs)
      | _, _, _ => none

/-- `impl From<&str> for ObjectId`
(`src/data_encoding/src/types/object_id.rs` lines 42-49): decodes the
string as hex (`hex::decode(s).unwrap()` — a panic, modelled `none`, when
the string is not valid hex) and copies into a 12-byte array
(`copy_from_slice` — a panic, modelled `none`, unless exactly 12 bytes
were decoded). -/
def objectId_from_str (s : List Nat) : Option (List Nat) :=
  match hexDecode s with
  | none => none
  | some bytes => if bytes.length = 12 then some bytes else none

/-- Decoder error kinds.  Modelled from the spec: the `deser` module
(`Decoder`, `from_bytes`; declared in `src/lib.rs`) is absent from the
source tree, so the decoder below is built from spec sections 4.5, 3 and
7.  Constructors follow the section-7 kinds used by the decoder; the
`deprecated` and `invalidTag` kinds carry the offending tag byte as the
spec requires. -/
inductive DeErr where
  | invalidDocument
  | invalidValue
  | utf8
  | deprecated (tag : Nat)
  | invalidTag (tag : Nat)
deriving DecidableEq

/-- Split off `k` bytes, or fail if fewer remain. -/
def splitBytes (k : Nat) (bs : List Nat) : Option (List Nat × List Nat) :=
  if bs.length < k then none else some (bs.take k, bs.drop k)

/-- Read bytes up to and including the next NUL, returning the bytes
before it and the remainder; fails when no NUL is present. -/
def readCString : List Nat → Option (List Nat × List Nat)
  | [] => none
  | b :: rest =>
      if b = 0 then some ([], rest)
      else
        match readCString rest with
        | some (nm, r) => some (b :: nm, r)
        | none => none

/-- Whether a byte is a UTF-8 continuation byte (`0x80`-`0xBF`). -/
def utf8Cont (b : Nat) : Bool := decide (0x80 ≤ b ∧ b ≤ 0xBF)

/-- UTF-8 validity of a byte sequence (RFC 3629 table: rejects overlong
forms, surrogates and values above `U+10FFFF`).  Modelled from the spec:
the decoder must validate UTF-8 in strings, regex parts, code and field
names (spec sections 4.5 and 7). -/
def utf8Valid : List Nat → Bool
  | [] => true
  | b :: rest =>
      if b ≤ 0x7F then utf8Valid rest
      else if 0xC2 ≤ b ∧ b ≤ 0xDF then
        match rest with
        | c1 :: r => utf8Cont c1 && utf8Valid r
        | [] => false
      else if b = 0xE0 then
        match rest with
        | c1 :: c2 :: r =>
            decide (0xA0 ≤ c1 ∧ c1 ≤ 0xBF) && utf8Cont c2 && utf8Valid r
        | _ => false
      else if b = 0xED then
        match rest with
        | c1 :: c2 :: r =>
            decide (0x80 ≤ c1 ∧ c1 ≤ 0x9F) && utf8Cont c2 && utf8Valid r
        | _ => false
      else if 0xE1 ≤ b ∧ b ≤ 0xEF then
        match rest with
        | c1 :: c2 :: r => utf8Cont c1 && utf8Cont c2 && utf8Valid r
        | _ => false
      else if b = 0xF0 then
        match rest with
        | c1 :: c2 :: c3 :: r =>
            decide (0x90 ≤ c1 ∧ c1 ≤ 0xBF) && utf8Cont c2 && utf8Cont c3 &&
              utf8Valid r
        | _ => false
      else if 0xF1 ≤ b ∧ b ≤ 0xF3 then
        match rest with
        | c1 :: c2 :: c3 :: r =>
            utf8Cont c1 && utf8Cont c2 && utf8Cont c3 && utf8Valid r
        | _ => false
      else if b = 0xF4 then
        match rest with
        | c1 :: c2 :: c3 :: r =>
            decide (0x80 ≤ c1 ∧ c1 ≤ 0x8F) && utf8Cont c2 && utf8Cont c3 &&
              utf8Valid r
        | _ => false
      else false

/-- Modelled from the spec: decode of a length-prefixed string (spec
section 4.5): signed 32-bit length prefix at least 1, `length - 1`
bytes that must be valid UTF-8, then a mandatory NUL terminator. -/
def decodeLpString (bs : List Nat) : Except DeErr (List Nat × List Nat) :=
  match splitBytes 4 bs with
  | none => .error .invalidDocument
  | some (lb, r) =>
      let u := leVal lb
      if sintOfU 32 u < 1 then .error .invalidDocument
      else
        match splitBytes (u - 1) r with
        | none => .error .invalidDocument
        | some (sb, r2) =>
            if utf8Valid sb then
              match r2 with
              | 0 :: r3 => .ok (sb, r3)
              | _ => .error .invalidDocument
            else .error .utf8

/-- Modelled from the spec: array elements must carry dense decimal index
names starting at `"0"` (spec section 4.5); anything else is rejected
with the malformed-array kind (an `InvalidValue` in the section-7 set). -/
def denseElems (idx : Nat) : List (List Nat × Value) → Except DeErr (List Value)
  | [] => .ok []
  | (nm, v) :: rest =>
      if nm = natDecimalBytes idx then
        match denseElems (idx + 1) rest with
        | .ok elems => .ok (v :: elems)
        | .error e => .error e
      else .error .invalidValue

mutual

/-- Modelled from the spec: per-variant decode of a value's payload given
its type tag, following the tag table of spec section 3 and the
validation rules of section 4.5.  `fuel` bounds the recursion depth and
strictly exceeds the nesting depth whenever it starts at the byte count.
Deprecated tags (`0x06`, `0x0C`, `0x0E`, `0x0F`) are rejected with a
deprecated-kind failure carrying the tag (strict mode, the spec's
default); unknown tags with an invalid-tag failure.  The source's
`Value::Binary` keeps no subtype, so the subtype byte is read and
dropped. -/
def decodeValueF (fuel : Nat) (tag : Nat) (bs : List Nat) :
    Except DeErr (Value × List Nat) :=
  match fuel with
  | 0 => .error .invalidDocument
  | f + 1 =>
    if tag = 0x01 then
      match splitBytes 8 bs with
      | some (p, r) => .ok (.double (leVal p), r)
      | none => .error .invalidDocument
    else if tag = 0x02 then
      match decodeLpString bs with
      | .ok (sb, r) => .ok (.string sb, r)
      | .error e => .error e
    else if tag = 0x03 then
      match decodeDocF f bs with
      | .ok (flds, r) => .ok (.document flds, r)
      | .error e => .error e
    else if tag = 0x04 then
      match decodeDocF f bs with
      | .ok (flds, r) =>
          match denseElems 0 flds with
          | .ok elems => .ok (.array elems, r)
          | .error e => .error e
      | .error e => .error e
    else if tag = 0x05 then
      match splitBytes 4 bs with
      | some (lb, r) =>
          let u := leVal lb
          if sintOfU 32 u < 0 then .error .invalidValue
          else
            match r with
            | _sub :: r2 =>
                match splitBytes u r2 with
                | some (db, r3) => .ok (.binary db, r3)
                | none => .error .invalidDocument
            | [] => .error .invalidDocument
      | none => .error .invalidDocument
    else if tag = 0x06 ∨ tag = 0x0C ∨ tag = 0x0E ∨ tag = 0x0F then
      .error (.deprecated tag)
    else if tag = 0x07 then
      match splitBytes 12 bs with
      | some (oid, r) => .ok (.objectId oid, r)
      | none => .error .invalidDocument
    else if tag = 0x08 then
      match bs with
      | 0 :: r => .ok (.boolean false, r)
      | 1 :: r => .ok (.boolean true, r)
      | _ => .error .invalidValue
    else if tag = 0x09 then
      match splitBytes 8 bs with
      | some (p, r) => .ok (.utcDateTime (sintOfU 64 (leVal p)), r)
      | none => .error .invalidDocument
    else if tag = 0x0A then .ok (.null, bs)
    else if tag = 0x0B then
      match readCString bs with
      | some (pat, r1) =>
          if utf8Valid pat then
            match readCString r1 with
            | some (opts, r2) =>
                if utf8Valid opts then .ok (.regularExpression pat opts, r2)
                else .error .utf8
            | none => .error .invalidDocument
          else .error .utf8
      | none => .error .invalidDocument
    else if tag = 0x0D then
      match decodeLpString bs with
      | .ok (sb, r) => .ok (.javaScriptCode sb, r)
      | .error e => .error e
    else if tag = 0x10 then
      match splitBytes 4 bs with
      | some (p, r) => .ok (.int32 (sintOfU 32 (leVal p)), r)
      | none => .error .invalidDocument
    else if tag = 0x11 then
      match splitBytes 8 bs with
      | some (p, r) => .ok (.timestamp (sintOfU 64 (leVal p)), r)
      | none => .error .invalidDocument
    else if tag = 0x12 then
      match splitBytes 8 bs with
      | some (p, r) => .ok (.int64 (sintOfU 64 (leVal p)), r)
      | none => .error .invalidDocument
    else if tag = 0x13 then
      match splitBytes 8 bs with
      | some (p, r) => .ok (.uint64 (leVal p), r)
      | none => .error .invalidDocument
    else if tag = 0x7F then .ok (.maxKey, bs)
    else if tag = 0xFF then .ok (.minKey, bs)
    else .error (.invalidTag tag)

/-- Modelled from the spec: document decode (spec section 4.5).  Reads
the `u32` little-endian length `L` (which counts the prefix and the
terminator, so `L ≥ 5`), checks that `L - 4` further bytes are present,
and parses fields from exactly that region. -/
def decodeDocF (fuel : Nat) (bs : List Nat) :
    Except DeErr (List (List Nat × Value) × List Nat) :=
  match fuel with
  | 0 => .error .invalidDocument
  | f + 1 =>
    match splitBytes 4 bs with
    | none => .error .invalidDocument
    | some (lb, r) =>
        let L := leVal lb
        if L < 5 then .error .invalidDocument
        else if r.length < L - 4 then .error .invalidDocument
        else
          match decodeFieldsF f (r.take (L - 4)) with
          | .ok flds => .ok (flds, r.drop (L - 4))
          | .error e => .error e

/-- Modelled from the spec: the field loop (spec section 4.5).  A lone
`0x00` exactly at the end of the region terminates the document; an
exhausted region without it is a missing-terminator failure; otherwise a
type tag, a NUL-terminated UTF-8 field name and the tagged payload are
consumed and parsing continues. -/
def decodeFieldsF (fuel : Nat) (body : List Nat) :
    Except DeErr (List (List Nat × Value)) :=
  match fuel with
  | 0 => .error .invalidDocument
  | f + 1 =>
    match body with
    | [] => .error .invalidDocument
    | [0] => .ok []
    | tag :: rest =>
        match readCString rest with
        | none => .error .invalidDocument
        | some (nm, r1) =>
            if utf8Valid nm then
              match decodeValueF f tag r1 with
              | .ok (v, r2) =>
                  match decodeFieldsF f r2 with
                  | .ok flds => .ok ((nm, v) :: flds)
                  | .error e => .error e
              | .error e => .error e
            else .error .utf8

end

/-- Modelled from the spec: decode a single tagged value from a byte
slice, the decoding counterpart of `Value::serialize` used by the
round-trip property (spec section 8); the byte count bounds the nesting
depth, so it is adequate fuel. -/
def decodeValue (bs : List Nat) : Except DeErr (Value × List Nat) :=
  match bs with
  | [] => .error .invalidDocument
  | tag :: rest => decodeValueF bs.length tag rest

/-- The per-input statement of claim C6: running `serialize_string` on a
fresh serializer yields the tag byte `0x02` followed by four length
bytes, the string bytes and a NUL, where the four length bytes hold the
signed 32-bit little-endian integer `byte_length + 1`, which is at least
1.  Stated from the claim's words in order to refute it at one input. -/
def c6StringClaim (v : List Nat) : Prop :=
  ∃ s' : SerState,
    serialize_string v ⟨[], 0, []⟩ = .ok s'
    ∧ s'.buf = 0x02 :: ((s'.buf.drop 1).take 4 ++ v ++ [0])
    ∧ sint32OfLe ((s'.buf.drop 1).take 4) = (v.length : Int) + 1
    ∧ 1 ≤ sint32OfLe ((s'.buf.drop 1).take 4)

/-- Length of the little-endian encoding. -/
theorem leBytes_length (k n : Nat) : (leBytes k n).length = k := by
  induction k generalizing n with
  | zero => rfl
  | succ k ih => simp [leBytes, ih]

/-- Round-trip value of the little-endian encoding. -/
theorem leVal_leBytes (k n : Nat) : leVal (leBytes k n) = n % 256 ^ k := by
  induction k generalizing n with
  | zero => simp [leBytes, leVal, Nat.mod_one]
  | succ k ih => rw [leBytes, leVal, ih, pow_succ', Nat.mod_mul]

/-- In append position (`pos = buf.length`), a write appends. -/
theorem wr_append (s : SerState) (d : List Nat) (h : s.pos = s.buf.length) :
    wr s d = ⟨s.buf ++ d, s.pos + d.length, s.stack⟩ := by
  simp [wr, writeAt, h, List.drop_eq_nil_of_le (Nat.le_add_right _ _)]

/-- Byte-level form of `serialize_string` from any append-position
state: tag, `(byte_length + 1) mod 2 ^ 32` in four little-endian bytes,
the string bytes, a NUL. -/
theorem serialize_string_append (v : List Nat) (s : SerState)
    (h : s.pos = s.buf.length) :
    serialize_string v s =
      .ok ⟨s.buf ++ 0x02 :: (le32 ((v.length + 1) % 2 ^ 32) ++ v ++ [0]),
           s.pos + (6 + v.length), s.stack⟩ := by
  have h1 : wr s [0x02] = ⟨s.buf ++ [0x02], s.pos + 1, s.stack⟩ := by
    simpa using wr_append s [0x02] h
  have h2 : wr ⟨s.buf ++ [0x02], s.pos + 1, s.stack⟩ (le32 ((v.length + 1) % 2 ^ 32))
      = ⟨(s.buf ++ [0x02]) ++ le32 ((v.length + 1) % 2 ^ 32), s.pos + 1 + 4, s.stack⟩ := by
    have := wr_append ⟨s.buf ++ [0x02], s.pos + 1, s.stack⟩
      (le32 ((v.length + 1) % 2 ^ 32)) (by simp [h]; try omega)
    simpa [le32, leBytes_length] using this
  have h3 : wr ⟨(s.buf ++ [0x02]) ++ le32 ((v.length + 1) % 2 ^ 32),
        s.pos + 1 + 4, s.stack⟩ v
      = ⟨((s.buf ++ [0x02]) ++ le32 ((v.length + 1) % 2 ^ 32)) ++ v,
         s.pos + 1 + 4 + v.length, s.stack⟩ := by
    have := wr_append ⟨(s.buf ++ [0x02]) ++ le32 ((v.length + 1) % 2 ^ 32),
      s.pos + 1 + 4, s.stack⟩ v (by simp [h, le32, leBytes_length]; try omega)
    simpa using this
  have h4 : wr ⟨((s.buf ++ [0x02]) ++ le32 ((v.length + 1) % 2 ^ 32)) ++ v,
        s.pos + 1 + 4 + v.length, s.stack⟩ [0]
      = ⟨(((s.buf ++ [0x02]) ++ le32 ((v.length + 1) % 2 ^ 32)) ++ v) ++ [0],
         s.pos + 1 + 4 + v.length + 1, s.stack⟩ := by
    have := wr_append ⟨((s.buf ++ [0x02]) ++ le32 ((v.length + 1) % 2 ^ 32)) ++ v,
      s.pos + 1 + 4 + v.length, s.stack⟩ [0] (by simp [h, le32, leBytes_length]; try omega)
    simpa using this
  show SerResult.ok (wr (wr (wr (wr s [0x02]) (le32 ((v.length + 1) % 2 ^ 32))) v) [0]) = _
  rw [h1, h2, h3, h4]
  simp [List.append_assoc]
  omega

/-- The array element loop writes exactly what the document field loop
writes on the synthesized (decimal-index, element) pairs. -/
theorem serializeElems_eq_fields (l : List Value) :
    ∀ idx s, serializeElems idx l s = serializeFields (synthFields idx l) s := by
  induction l with
  | nil => intro idx s; simp only [serializeElems, synthFields, serializeFields]
  | cons v rest ih =>
      intro idx s
      simp only [serializeElems, synthFields, serializeFields]
      cases serializeValue v (serialize_field_name (natDecimalBytes idx) s) with
      | ok s' => simp only [bindR]; exact ih _ _
      | fail e s' => simp only [bindR]
      | panicked => simp only [bindR]

/-- The synthesized pairs carry the array elements in order. -/
theorem synthFields_map_snd (l : List Value) :
    ∀ idx, (synthFields idx l).map Prod.snd = l := by
  induction l with
  | nil => intro idx; rfl
  | cons v rest ih => intro idx; simp [synthFields, ih]

/-- The synthesized names are the decimal forms of the consecutive
indices starting at `idx`. -/
theorem synthFields_map_fst (l : List Value) :
    ∀ idx, (synthFields idx l).map Prod.fst
      = (List.range l.length).map (fun i => natDecimalBytes (idx + i)) := by
  induction l with
  | nil => intro idx; rfl
  | cons v rest ih =>
      intro idx
      simp only [synthFields, List.map_cons, List.length_cons,
        List.range_succ_eq_map, List.map_map, ih, Nat.add_zero]
      congr 1
      apply List.map_congr_left
      intro a ha
      simp only [Function.comp_apply]
      congr 1
      omega

/-- Properties of the decimal index form: it denotes its index, is
nonempty, has a leading `'0'` only for index 0, and consists of ASCII
digits. -/
theorem natDecimalBytes_spec (n : Nat) :
    decimalVal (natDecimalBytes n) = n
    ∧ natDecimalBytes n ≠ []
    ∧ ((natDecimalBytes n).head? = some 48 ↔ n = 0)
    ∧ (natDecimalBytes n).all (fun c => decide (48 ≤ c ∧ c ≤ 57)) = true := by
  by_cases h : n = 0
  · subst h
    refine ⟨by simp [decimalVal, natDecimalBytes, Nat.ofDigits], by decide,
      by decide, by decide⟩
  · unfold natDecimalBytes
    rw [if_neg h]
    have hnil : Nat.digits 10 n ≠ [] := Nat.digits_ne_nil_iff_ne_zero.mpr h
    refine ⟨?_, ?_, ?_, ?_⟩
    · unfold decimalVal
      rw [List.map_map]
      have hid : ((fun c => c - 48) ∘ fun d => (d : Nat) + 48) = id := by
        funext d; simp
      rw [hid, List.map_id, List.reverse_reverse, Nat.ofDigits_digits]
    · intro hh
      rw [List.map_eq_nil_iff, List.reverse_eq_nil_iff] at hh
      exact hnil hh
    · constructor
      · intro hh
        exfalso
        rw [List.head?_map, List.head?_reverse,
          List.getLast?_eq_getLast _ hnil] at hh
        have hne := Nat.getLast_digit_ne_zero 10 h
        injection hh with hh
        have hh2 : (Nat.digits 10 n).getLast hnil + 48 = 48 := hh
        omega
      · intro hn; exact absurd hn h
    · rw [List.all_eq_true]
      intro c hc
      simp only [List.mem_map, List.mem_reverse] at hc
      obtain ⟨d, hd, rfl⟩ := hc
      have hlt : d < 10 := Nat.digits_lt_base (by norm_num) hd
      simp only [decide_eq_true_eq]
      omega

/-- C1: the claim `decode(encode(v)) = v` for every non-deprecated value
fails on the code: `Value::serialize` routes `UTCDateTime` through
`serialize_timestamp`, so encoding `UTCDateTime(1)` yields tag `0x11`
bytes, which decode (per the spec's tag table) to `Timestamp(1)`, a
different value. -/
theorem c1_decode_encode_utc_datetime_mismatch :
    encodeValue (.utcDateTime 1) = some [0x11, 1, 0, 0, 0, 0, 0, 0, 0]
    ∧ decodeValue [0x11, 1, 0, 0, 0, 0, 0, 0, 0] = .ok (.timestamp 1, [])
    ∧ Value.timestamp 1 ≠ Value.utcDateTime 1 := by
  refine ⟨?_, rfl, by simp⟩
  simp [encodeValue, serializeValue, serialize_timestamp, toU64, le64, leBytes,
    wr, writeAt]

/-- C2: encoding `Value::UTCDateTime` through the BSON serializer emits
tag `0x11` — not the claimed `0x09` — because the dispatcher calls
`serialize_timestamp`; the `serialize_utc_datetime` method itself does
emit `0x09`, but is never reached from the value dispatcher. -/
theorem c2_utc_datetime_dispatch_tag :
    serializeValue (.utcDateTime 5) ⟨[], 0, []⟩
      = .ok ⟨[0x11, 5, 0, 0, 0, 0, 0, 0, 0], 9, []⟩
    ∧ serialize_utc_datetime 5 ⟨[], 0, []⟩
      = .ok ⟨[0x09, 5, 0, 0, 0, 0, 0, 0, 0], 9, []⟩
    ∧ serialize_timestamp 5 ⟨[], 0, []⟩
      = .ok ⟨[0x11, 5, 0, 0, 0, 0, 0, 0, 0], 9, []⟩ := by
  refine ⟨?_, by decide, by decide⟩
  simp [serializeValue, serialize_timestamp, toU64, le64, leBytes, wr, writeAt]

/-- C3: the claim that a document's encoding ends in `0x00` and that the
empty document encodes to `05 00 00 00 00` fails on the code: the
encoder never writes the terminator, so the empty document's frame
(after the `0x03` field tag) is the four bytes `04 00 00 00`. -/
theorem c3_empty_document_frame :
    serialize_document [] ⟨[], 0, []⟩ = .ok ⟨[0x03, 0x04, 0, 0, 0], 5, []⟩
    ∧ [0x03, 0x04, 0, 0, 0].drop 1 ≠ [0x05, 0, 0, 0, 0] := by
  constructor
  · simp [serialize_document, serializeFields, end_document,
      write_document_length, wr, writeAt, le32, leBytes, bindR]
  · decide

/-- C4: the encoder emits fields in the `HashMap`'s iteration order, and
the two iteration orders a map built by inserting `"a"` then `"b"` may
present are permutations of one another yet encode to different byte
sequences — so the emitted bytes are not determined by the insertion
sequence, contradicting the insertion-order claim. -/
theorem c4_document_encoding_order_dependent :
    ([([97], Value.int32 1), ([98], Value.int32 2)] :
        List (List Nat × Value)).Perm
      [([98], Value.int32 2), ([97], Value.int32 1)]
    ∧ serialize_document [([97], .int32 1), ([98], .int32 2)] ⟨[], 0, []⟩
        ≠ serialize_document [([98], .int32 2), ([97], .int32 1)] ⟨[], 0, []⟩ := by
  constructor
  · exact List.Perm.swap _ _ _
  · have h1 : serialize_document [([97], .int32 1), ([98], .int32 2)] ⟨[], 0, []⟩
        = .ok ⟨[3, 18, 0, 0, 0, 97, 0, 16, 1, 0, 0, 0, 98, 0, 16, 2, 0, 0, 0],
               19, []⟩ := by
      simp [serialize_document, serializeFields, serializeValue, serialize_i32,
        serialize_field_name, end_document, write_document_length,
        wr, writeAt, le32, leBytes, toU32, bindR]
    have h2 : serialize_document [([98], .int32 2), ([97], .int32 1)] ⟨[], 0, []⟩
        = .ok ⟨[3, 18, 0, 0, 0, 98, 0, 16, 2, 0, 0, 0, 97, 0, 16, 1, 0, 0, 0],
               19, []⟩ := by
      simp [serialize_document, serializeFields, serializeValue, serialize_i32,
        serialize_field_name, end_document, write_document_length,
        wr, writeAt, le32, leBytes, toU32, bindR]
    rw [h1, h2]
    simp

/-- C5: the claim that all four deprecated serializer methods return a
Deprecated error writing nothing fails on `serialize_undefined`, which
writes the tag byte `0x06` and returns success; the other three do
return Deprecated errors without writing, and the code-with-scope
truncation takes the first 10 characters and appends `"..."` exactly
when the code exceeds 100 characters. -/
theorem c5_serialize_undefined_writes_tag :
    serialize_undefined ⟨[], 0, []⟩ = .ok ⟨[0x06], 1, []⟩
    ∧ (∀ c i s, serialize_db_pointer c i s = .fail .deprecated s)
    ∧ (∀ sy s, serialize_symbol sy s = .fail .deprecated s)
    ∧ (∀ c sc s, serialize_javascript_code_with_scope c sc s = .fail .deprecated s)
    ∧ truncated_code (List.replicate 101 'a')
        = List.replicate 10 'a' ++ ['.', '.', '.']
    ∧ truncated_code (List.replicate 100 'a') = List.replicate 10 'a'
    ∧ truncated_code (List.replicate 5 'a') = List.replicate 5 'a' := by
  exact ⟨by decide, fun c i s => rfl, fun sy s => rfl, fun c sc s => rfl,
    by decide, by decide, by decide⟩

/-- Witness for C5 at concrete inputs: the three erroring deprecated
methods applied to concrete arguments. -/
theorem c5_serialize_undefined_writes_tag_witness :
    serialize_db_pointer [99] [1, 2, 3, 4, 5, 6, 7, 8, 9, 10, 11, 12] ⟨[], 0, []⟩
      = .fail .deprecated ⟨[], 0, []⟩
    ∧ serialize_symbol [115] ⟨[], 0, []⟩ = .fail .deprecated ⟨[], 0, []⟩
    ∧ serialize_javascript_code_with_scope [97] [] ⟨[], 0, []⟩
      = .fail .deprecated ⟨[], 0, []⟩ :=
  ⟨c5_serialize_undefined_writes_tag.2.1 _ _ _,
   c5_serialize_undefined_writes_tag.2.2.1 _ _,
   c5_serialize_undefined_writes_tag.2.2.2.1 _ _ _⟩

/-- C6 (counterexample): at the string of `2 ^ 31 - 1` bytes `97`, the
four written length bytes are `00 00 00 80`, whose signed 32-bit value
is `-2 ^ 31`, not `byte_length + 1` and not at least 1 — the claim as
stated fails for that input. -/
theorem c6_string_claim_counterexample :
    ¬ c6StringClaim (List.replicate (2 ^ 31 - 1) 97) := by
  rintro ⟨s', h1, -, h3, -⟩
  rw [serialize_string_append _ _ rfl] at h1
  injection h1 with h1
  rw [← h1] at h3
  simp only [List.length_replicate, List.nil_append] at h3
  rw [show ((2 ^ 31 - 1 + 1) % 2 ^ 32 : Nat) = 2147483648 by norm_num] at h3
  rw [show le32 2147483648 = [0, 0, 0, 128] by decide] at h3
  simp only [List.drop_succ_cons, List.drop_zero, List.append_assoc] at h3
  rw [List.take_left' (by decide : ([0, 0, 0, 128] : List Nat).length = 4)] at h3
  rw [show sint32OfLe [0, 0, 0, 128] = -2147483648 by decide] at h3
  norm_num at h3

/-- C6 (amended): for every string whose byte length satisfies
`byte_length + 1 < 2 ^ 31`, `serialize_string` writes the tag `0x02`,
then `byte_length + 1` as a signed 32-bit little-endian integer (whose
signed value equals `byte_length + 1` and is at least 1), then the
bytes, then a NUL; for longer strings the four bytes hold
`(byte_length + 1) mod 2 ^ 32` instead. -/
theorem c6_serialize_string_format (v : List Nat) (s : SerState)
    (h : s.pos = s.buf.length) (hlen : v.length + 1 < 2 ^ 31) :
    serialize_string v s =
      .ok ⟨s.buf ++ 0x02 :: (le32 (v.length + 1) ++ v ++ [0]),
           s.pos + (6 + v.length), s.stack⟩
    ∧ sint32OfLe (le32 (v.length + 1)) = (v.length : Int) + 1
    ∧ 1 ≤ sint32OfLe (le32 (v.length + 1)) := by
  have hmod : (v.length + 1) % 2 ^ 32 = v.length + 1 :=
    Nat.mod_eq_of_lt (lt_trans hlen (by norm_num))
  have hval : leVal (le32 (v.length + 1)) = v.length + 1 := by
    rw [le32, leVal_leBytes]
    exact Nat.mod_eq_of_lt (lt_trans hlen (by norm_num))
  have hsint : sint32OfLe (le32 (v.length + 1)) = (v.length : Int) + 1 := by
    rw [sint32OfLe, hval, sintOfU, if_pos (by simpa using hlen)]
    push_cast
    ring
  refine ⟨?_, hsint, by rw [hsint]; omega⟩
  have hs := serialize_string_append v s h
  rw [hmod] at hs
  exact hs

/-- Witness for C6 at the empty string on a fresh serializer: the
payload after the tag is exactly `01 00 00 00 00`. -/
theorem c6_serialize_string_format_witness :
    serialize_string [] ⟨[], 0, []⟩ = .ok ⟨[0x02, 1, 0, 0, 0, 0], 6, []⟩
    ∧ (1 : Int) ≤ sint32OfLe (le32 (List.length ([] : List Nat) + 1)) := by
  have h := c6_serialize_string_format [] ⟨[], 0, []⟩ rfl (by norm_num)
  refine ⟨?_, h.2.2⟩
  have h1 := h.1
  simpa [le32, leBytes] using h1

/-- C7: `serialize_array` encodes an array exactly as the document
routine applied to the synthesized (index-name, element) pairs (with
tag `0x04`); the synthesized names are the base-10 decimal forms of the
dense, contiguous indices starting at `"0"`, with no leading zeros, and
the pairs carry the elements in order. -/
theorem c7_serialize_array_as_document (elems : List Value) (s : SerState) :
    serialize_array elems s =
      (let s1 := wr s [0x04]
       let s2 := { s1 with stack := s1.pos :: s1.stack }
       let s3 := wr s2 (le32 0)
       bindR (serializeFields (synthFields 0 elems) s3) end_document)
    ∧ (synthFields 0 elems).map Prod.snd = elems
    ∧ (synthFields 0 elems).map Prod.fst
        = (List.range elems.length).map natDecimalBytes
    ∧ ∀ n : Nat,
        decimalVal (natDecimalBytes n) = n
        ∧ natDecimalBytes n ≠ []
        ∧ ((natDecimalBytes n).head? = some 48 ↔ n = 0)
        ∧ (natDecimalBytes n).all (fun c => decide (48 ≤ c ∧ c ≤ 57)) = true := by
  refine ⟨?_, synthFields_map_snd elems 0, ?_, natDecimalBytes_spec⟩
  · simp only [serialize_array]
    exact congrArg (fun r => bindR r end_document) (serializeElems_eq_fields elems 0 _)
  · rw [synthFields_map_fst]
    simp

/-- Witness for C7 at a one-element array: the synthesized field name is
the decimal byte `"0"` and the element is carried in order. -/
theorem c7_serialize_array_as_document_witness :
    (synthFields 0 [Value.int32 7]).map Prod.fst = [[48]]
    ∧ (synthFields 0 [Value.int32 7]).map Prod.snd = [Value.int32 7]
    ∧ decimalVal (natDecimalBytes 0) = 0 := by
  have h := c7_serialize_array_as_document [Value.int32 7] ⟨[], 0, []⟩
  refine ⟨?_, h.2.1, (h.2.2.2 0).1⟩
  rw [h.2.2.1]
  decide

/-- C8: the claim that `serialize_javascript_code` emits a
length-prefixed string after tag `0x0D` fails on the code, which writes
only the code bytes and a NUL with no length prefix; the spec-modelled
decoder consequently rejects the emitted bytes. -/
theorem c8_javascript_code_unprefixed :
    serialize_javascript_code [97] ⟨[], 0, []⟩ = .ok ⟨[0x0D, 97, 0], 3, []⟩
    ∧ [0x0D, 97, 0] ≠ 0x0D :: (le32 2 ++ [97] ++ [0])
    ∧ decodeValue [0x0D, 97, 0] = .error .invalidDocument := by
  exact ⟨by decide, by decide, rfl⟩

/-- C9: calling `end_document` (equivalently `write_document_length`)
with an empty stack of open document positions panics (the `unwrap` of
`Vec::pop` on an empty vector) rather than returning an error. -/
theorem c9_end_document_empty_stack_panics (s : SerState) (h : s.stack = []) :
    end_document s = .panicked ∧ write_document_length s = .panicked := by
  simp [end_document, write_document_length, h]

/-- Witness for C9 at the fresh serializer state. -/
theorem c9_end_document_empty_stack_panics_witness :
    end_document ⟨[], 0, []⟩ = .panicked
    ∧ write_document_length ⟨[], 0, []⟩ = .panicked :=
  c9_end_document_empty_stack_panics ⟨[], 0, []⟩ rfl

/-- C10: `ObjectId::from(&str)` is not total: every string rejected by
`hex::decode` panics (modelled `none`), and every valid-hex string whose
decoded byte length is not 12 panics in `copy_from_slice` (modelled
`none`); concretely `"zz"` and the valid-hex `"ff"` both panic. -/
theorem c10_object_id_from_str_not_total :
    (∀ s, hexDecode s = none → objectId_from_str s = none)
    ∧ (∀ s bs, hexDecode s = some bs → bs.length ≠ 12 → objectId_from_str s = none)
    ∧ objectId_from_str [122, 122] = none
    ∧ objectId_from_str [102, 102] = none
    ∧ hexDecode [102, 102] = some [255] := by
  refine ⟨fun s h => ?_, fun s bs h hl => ?_, by decide, by decide, by decide⟩
  · simp [objectId_from_str, h]
  · simp [objectId_from_str, h, hl]

/-- Witness for C10 at the non-hex string `"gh"` and the valid-hex
one-byte string `"ab"`. -/
theorem c10_object_id_from_str_not_total_witness :
    objectId_from_str [103, 104] = none ∧ objectId_from_str [97, 98] = none :=
  ⟨c10_object_id_from_str_not_total.1 [103, 104] (by decide),
   c10_object_id_from_str_not_total.2.1 [97, 98] [171] (by decide) (by decide)⟩
